import Mathlib

/-!
Verification of the audio-streams playback core.

This file shallowly embeds the playback engine of the audio-streams
repository: the time/grid utilities (src/utils/audioUtils.ts and
app/utils/audioUtils.ts), the reducer-based project data model
(AudioEngineContext.tsx / Track.tsx), and the AudioEngine class
(src/lib/AudioEngine.ts).  Numbers are modelled as rationals; where the
JavaScript code can produce NaN or Infinity we use an explicit extended
numeric type mirroring IEEE-754 special-value propagation for the
operations the code performs.
-/

namespace AudioStreams

/-- JavaScript number restricted to the values the embedded code can
produce: a finite rational, positive or negative infinity, or NaN.
Negative zero is identified with zero (no embedded code distinguishes
them). -/
inductive JSNum where
  | num (q : ℚ)
  | posInf
  | negInf
  | nan
deriving DecidableEq

namespace JSNum

/-- JavaScript isNaN. -/
def jIsNaN : JSNum → Bool
  | nan => true
  | _ => false

/-- JavaScript boolean coercion for numbers: 0 and NaN are falsy. -/
def jFalsy : JSNum → Bool
  | num q => q = 0
  | nan => true
  | _ => false

/-- Is the value a finite number (not NaN, not an infinity)? -/
def jFinite : JSNum → Bool
  | num _ => true
  | _ => false

/-- JavaScript division, covering the special values: x/0 gives a signed
infinity (NaN for 0/0), finite/infinite gives 0, infinite/finite keeps
the infinity, infinite/infinite and anything with NaN gives NaN. -/
def jdiv : JSNum → JSNum → JSNum
  | nan, _ => nan
  | _, nan => nan
  | num a, num b =>
      if b = 0 then if a = 0 then nan else if 0 < a then posInf else negInf
      else num (a / b)
  | num _, posInf => num 0
  | num _, negInf => num 0
  | posInf, num b => if 0 ≤ b then posInf else negInf
  | negInf, num b => if 0 ≤ b then negInf else posInf
  | posInf, posInf => nan
  | posInf, negInf => nan
  | negInf, posInf => nan
  | negInf, negInf => nan

/-- JavaScript multiplication on the special values: 0 times an infinity
is NaN, otherwise infinities keep the product's sign, NaN propagates. -/
def jmul : JSNum → JSNum → JSNum
  | nan, _ => nan
  | _, nan => nan
  | num a, num b => num (a * b)
  | num a, posInf => if a = 0 then nan else if 0 < a then posInf else negInf
  | num a, negInf => if a = 0 then nan else if 0 < a then negInf else posInf
  | posInf, num b => if b = 0 then nan else if 0 < b then posInf else negInf
  | negInf, num b => if b = 0 then nan else if 0 < b then negInf else posInf
  | posInf, posInf => posInf
  | posInf, negInf => negInf
  | negInf, posInf => negInf
  | negInf, negInf => posInf

/-- JavaScript Math.round: round half towards positive infinity;
NaN and infinities pass through. -/
def jround : JSNum → JSNum
  | num q => num ((⌊q + 1/2⌋ : ℤ) : ℚ)
  | posInf => posInf
  | negInf => negInf
  | nan => nan

/-- JavaScript comparison a <= b: false whenever either side is NaN. -/
def jle : JSNum → JSNum → Bool
  | nan, _ => false
  | _, nan => false
  | num a, num b => a ≤ b
  | num _, posInf => true
  | num _, negInf => false
  | posInf, num _ => false
  | negInf, num _ => true
  | posInf, posInf => true
  | negInf, negInf => true
  | posInf, negInf => false
  | negInf, posInf => true

end JSNum

open JSNum

/-- getGridDuration of src/src/utils/audioUtils.ts (the unguarded
variant): seconds per grid unit, (60 / bpm) / (gridSize / 4), with no
validation of the inputs. -/
def getGridDuration_unguarded (bpm gridSize : JSNum) : JSNum :=
  let beatDuration := jdiv (num 60) bpm
  jdiv beatDuration (jdiv gridSize (num 4))

/-- snapToGrid of src/src/utils/audioUtils.ts (the unguarded variant):
Math.round(time / gridDuration) * gridDuration with no validation. -/
def snapToGrid_unguarded (time bpm gridSize : JSNum) : JSNum :=
  let gridDuration := getGridDuration_unguarded bpm gridSize
  jmul (jround (jdiv time gridDuration)) gridDuration

/-- getGridDuration of app/utils/audioUtils.ts (the guarded variant):
an invalid bpm (falsy, NaN or less-or-equal zero) falls back to 120, an
invalid gridSize falls back to 16 (sixteenth note), and a non-positive
or NaN result falls back to 0.125 seconds. -/
def getGridDuration_guarded (bpm gridSize : JSNum) : JSNum :=
  let bpm := if jFalsy bpm || jIsNaN bpm || jle bpm (num 0) then num 120 else bpm
  let gridSize := if jFalsy gridSize || jIsNaN gridSize || jle gridSize (num 0) then num 16 else gridSize
  let beatDuration := jdiv (num 60) bpm
  let gridDuration := jdiv beatDuration (jdiv gridSize (num 4))
  if jIsNaN gridDuration || jle gridDuration (num 0) then num (1/8) else gridDuration

/-- snapToGrid of app/utils/audioUtils.ts (the guarded variant): a NaN
time returns 0, a non-positive grid duration returns the time unchanged,
and a NaN snap result returns the time unchanged. -/
def snapToGrid_guarded (time bpm gridSize : JSNum) : JSNum :=
  if jIsNaN time then num 0
  else
    let gridDuration := getGridDuration_guarded bpm gridSize
    if jle gridDuration (num 0) then time
    else
      let snapped := jmul (jround (jdiv time gridDuration)) gridDuration
      if jIsNaN snapped then time else snapped

/-- clamp of src/src/utils/audioUtils.ts: Math.min(Math.max(value, lo), hi),
on finite numbers. -/
def clamp (value lo hi : ℚ) : ℚ :=
  min (max value lo) hi

/-- The observable result of createStereoPanner: the pan AudioParam value
assigned to the created StereoPannerNode. -/
structure StereoPannerNode where
  panValue : ℚ
deriving DecidableEq

/-- createStereoPanner of src/src/utils/audioUtils.ts restricted to finite
pan inputs: creates a panner node and assigns pan.value = clamp(panValue, -1, 1). -/
def createStereoPanner (panValue : ℚ) : StereoPannerNode :=
  { panValue := clamp panValue (-1) 1 }

/-! ## Project / track / clip data model (src/types/audio.ts) -/

/-- The decoded audio buffer, reduced to its only observable used by the
playback core: its native length in seconds. -/
structure AudioBufferRec where
  durationSeconds : ℚ
deriving DecidableEq

/-- AudioClip of src/types/audio.ts (buffer replaced by its length). -/
structure AudioClip where
  id : String
  name : String
  trackId : String
  audioBuffer : Option AudioBufferRec
  waveformData : List ℚ
  startTime : ℚ
  duration : ℚ
  volume : ℚ
  pitch : ℤ
  color : String
  isLoading : Bool
deriving DecidableEq

/-- AudioTrack of src/types/audio.ts, in the clip-id-reference form the
reducer state uses (Omit clips, plus clipIds). -/
structure AudioTrack where
  id : String
  name : String
  color : String
  volume : ℚ
  pan : ℚ
  muted : Bool
  solo : Bool
  clipIds : List String
  index : ℕ
deriving DecidableEq

/-- The project part of the reducer state that the mutations in question
read and write: the track list and the derived duration. -/
structure ProjectState where
  tracks : List AudioTrack
  duration : ℚ
deriving DecidableEq

/-- The slice of the reducer AppState the clip/track mutations touch. -/
structure AppState where
  project : ProjectState
  clips : List AudioClip
deriving DecidableEq

/-- The tracks-with-clips list the reducer rebuilds before recomputing the
project duration: for each track, its clipIds resolved against the clip
collection, unresolvable ids dropped (.map(find).filter(Boolean)). -/
def tracksWithClips (tracks : List AudioTrack) (clips : List AudioClip) : List (List AudioClip) :=
  tracks.map (fun t => t.clipIds.filterMap (fun cid => clips.find? (fun c => c.id == cid)))

/-- calculateProjectDuration of src/src/utils/audioUtils.ts: 16 for an
empty track list, otherwise the maximum clip end (startTime + duration)
over all tracks, floored at 16.  Math.max over an empty spread is
-Infinity, so a nonempty track list with no clips also yields 16. -/
def calculateProjectDuration (tracks : List (List AudioClip)) : ℚ :=
  if tracks.isEmpty then 16
  else
    match tracks.flatMap (fun cs => cs.map (fun c => c.startTime + c.duration)) with
    | [] => 16
    | e :: es => max (es.foldl max e) 16

/-- The partial clip record carried by an UPDATE_CLIP action (the fields
any embedded caller passes). -/
structure ClipUpdates where
  startTime : Option ℚ := none
  duration : Option ℚ := none
  trackId : Option String := none

/-- Spreading an updates object over a clip ({ ...clip, ...updates }). -/
def applyClipUpdates (c : AudioClip) (u : ClipUpdates) : AudioClip :=
  { c with
    startTime := u.startTime.getD c.startTime
    duration := u.duration.getD c.duration
    trackId := u.trackId.getD c.trackId }

/-- appReducer, UPDATE_CLIP case (AudioEngineContext.tsx): map the update
over the matching clip and recompute the project duration. -/
def updateClip (s : AppState) (clipId : String) (u : ClipUpdates) : AppState :=
  let updatedClips := s.clips.map (fun c => if c.id = clipId then applyClipUpdates c u else c)
  { s with
    clips := updatedClips
    project := { s.project with
      duration := calculateProjectDuration (tracksWithClips s.project.tracks updatedClips) } }

/-- handleClipMove of MainAudioView.tsx: dispatch UPDATE_CLIP with
startTime clamped to Math.max(0, newStartTime). -/
def handleClipMove (s : AppState) (clipId : String) (newStartTime : ℚ) : AppState :=
  updateClip s clipId { startTime := some (max 0 newStartTime) }

/-- appReducer, MOVE_CLIP_TO_TRACK case (Track.tsx): drop the clip id from
the track holding it, append it to the target track, rewrite the clip's
trackId and startTime (unclamped), and recompute the duration. -/
def moveClipToTrack (s : AppState) (clipId targetTrackId : String) (newStartTime : ℚ) : AppState :=
  let updatedTracks := s.project.tracks.map (fun track =>
    if clipId ∈ track.clipIds then
      { track with clipIds := track.clipIds.filter (fun cid => cid != clipId) }
    else if track.id = targetTrackId then
      { track with clipIds := track.clipIds ++ [clipId] }
    else track)
  let updatedClips := s.clips.map (fun c =>
    if c.id = clipId then { c with trackId := targetTrackId, startTime := newStartTime } else c)
  { project := { tracks := updatedTracks
                 duration := calculateProjectDuration (tracksWithClips updatedTracks updatedClips) }
    clips := updatedClips }

/-- appReducer, REMOVE_TRACK case (Track.tsx): find the track, drop every
track with that id, drop every clip whose id is listed in the found
track's clipIds, and recompute the duration.  An unknown id leaves the
state unchanged. -/
def removeTrack (s : AppState) (trackId : String) : AppState :=
  match s.project.tracks.find? (fun track => track.id == trackId) with
  | none => s
  | some trackToRemove =>
    let updatedTracks := s.project.tracks.filter (fun track => track.id != trackId)
    let updatedClips := s.clips.filter (fun c => !(trackToRemove.clipIds.contains c.id))
    { project := { tracks := updatedTracks
                   duration := calculateProjectDuration (tracksWithClips updatedTracks updatedClips) }
      clips := updatedClips }

/-! ## The AudioEngine class (src/src/lib/AudioEngine.ts)

The engine is embedded as a state record plus pure transition functions,
one per method.  The JavaScript Map objects (trackNodes, clipNodes) are
association lists with Map.set / Map.get semantics.  Created
AudioBufferSourceNodes are recorded in an append-only list; stopping a
source sets its stopped flag.  The AudioContext clock
(audioContext.currentTime) is passed in as a parameter named now. -/

/-- Map.get on an association list (first binding wins, as in a JS Map
where keys are unique). -/
def mapGet? {α : Type} (k : String) : List (String × α) → Option α
  | [] => none
  | (k', v) :: rest => if k' = k then some v else mapGet? k rest

/-- Map.set on an association list: overwrite the binding in place if the
key exists, otherwise append. -/
def mapSet {α : Type} (k : String) (v : α) : List (String × α) → List (String × α)
  | [] => [(k, v)]
  | (k', v') :: rest => if k' = k then (k, v) :: rest else (k', v') :: mapSet k v rest

/-- Math.round as the engine uses it: round half towards positive
infinity, on a finite rational. -/
def jsRound (q : ℚ) : ℤ :=
  ⌊q + 1/2⌋

/-- AudioEngine.samplesToSeconds: samples / sampleRate. -/
def samplesToSeconds (sampleRate samples : ℚ) : ℚ :=
  samples / sampleRate

/-- AudioEngine.secondsToSamples: Math.round(seconds * sampleRate). -/
def secondsToSamples (sampleRate seconds : ℚ) : ℚ :=
  ((jsRound (seconds * sampleRate) : ℤ) : ℚ)

/-- Math.pow(2, pitch / 12), the playback rate of a clip source.  The
exponent is taken with integer division, which is exact exactly when the
pitch is a multiple of twelve semitones; every claim in this development
evaluates it at pitch = 0 where it is 1. -/
def pow2twelfth (pitch : ℤ) : ℚ :=
  (2 : ℚ) ^ (pitch / 12)

/-- One created AudioBufferSourceNode together with the per-clip gain it
was started with.  startAt and offset are the two arguments passed to
source.start; stopped records whether source.stop() has been called.
The code never passes a duration to start() and never schedules a
delayed stop, so an unstopped source sounds from startAt for
(bufferDuration - offset) / playbackRate seconds. -/
structure SourceRec where
  clipId : String
  stopped : Bool
  startAt : ℚ
  offset : ℚ
  bufferDuration : ℚ
  playbackRate : ℚ
  gainValue : ℚ
deriving DecidableEq

/-- The engine-clock time at which an unstopped source falls silent: its
start time plus the remaining buffer content divided by the playback
rate (WebAudio semantics of start(when, offset) with no stop scheduled). -/
def naturalEndTime (s : SourceRec) : ℚ :=
  s.startAt + (s.bufferDuration - s.offset) / s.playbackRate

/-- The per-track node bundle (gain, panner, clipNodes map); clip nodes
are recorded as indices into the engine's createdSources list. -/
structure TrackNodeData where
  gainValue : ℚ
  panValue : ℚ
  clipNodes : List (String × ℕ)
deriving DecidableEq

/-- AudioContext.state. -/
inductive CtxState where
  | running
  | suspended
  | closed
deriving DecidableEq

/-- AudioEngineState as held in _state (src/lib/AudioEngine.ts). -/
structure EngineState where
  isPlaying : Bool
  currentSamples : ℚ
  isLooping : Bool
  loopStartSamples : ℚ
  loopEndSamples : ℚ
  volume : ℚ
  sampleRate : ℚ
deriving DecidableEq

/-- AudioEngineProject as held in _project. -/
structure EngineProject where
  tracks : List AudioTrack
deriving DecidableEq

/-- The mutable fields of the AudioEngine instance.  mainGain is the main
GainNode (none before initialization) carrying its gain value; rafId is
whether a requestAnimationFrame callback is pending. -/
structure Engine where
  ctx : Option CtxState
  mainGain : Option ℚ
  trackNodes : List (String × TrackNodeData)
  createdSources : List SourceRec
  rafId : Bool
  startTime : ℚ
  pausedAtSamples : ℚ
  lastUpdateSamples : ℚ
  state : EngineState
  project : EngineProject
  allClips : List AudioClip
deriving DecidableEq

/-- Indices (positions in createdSources) of the sources bookkept in a
trackNodes map — the sources the engine can still reach to stop. -/
def referencedIdxs (tns : List (String × TrackNodeData)) : List ℕ :=
  tns.flatMap (fun kv => kv.2.clipNodes.map (fun p => p.2))

/-- All clip-id keys currently present in any track's clipNodes map. -/
def allNodeKeys (tns : List (String × TrackNodeData)) : List String :=
  tns.flatMap (fun kv => kv.2.clipNodes.map (fun p => p.1))

/-- Mark as stopped every source whose index (starting at k) lies in
refs; models iterating the trackNodes maps calling source.stop() on
each bookkept source (the stop is wrapped in try/catch in the code, so
it always succeeds in the model). -/
def stopRefs (refs : List ℕ) : ℕ → List SourceRec → List SourceRec
  | _, [] => []
  | k, s :: rest =>
    (if k ∈ refs then { s with stopped := true } else s) :: stopRefs refs (k + 1) rest

/-- Indices (starting at k) of the sources not yet stopped. -/
def activeIdxs : ℕ → List SourceRec → List ℕ
  | _, [] => []
  | k, s :: rest => (if s.stopped then [] else [k]) ++ activeIdxs (k + 1) rest

/-- Clip ids of the sources not yet stopped, in creation order. -/
def activeIds (l : List SourceRec) : List String :=
  (l.filter (fun s => s.stopped = false)).map (fun s => s.clipId)

/-- Clip ids of the engine's currently active (created, not stopped)
sources. -/
def activeClipIds (e : Engine) : List String :=
  activeIds e.createdSources

/-- Engine bookkeeping invariant: every source that has not been stopped
is still reachable through some track's clipNodes map.  It holds for a
fresh engine (no sources) and, as proved below, is maintained by the
rebuild/stop operations. -/
def EngineInv (e : Engine) : Prop :=
  ∀ i ∈ activeIdxs 0 e.createdSources, i ∈ referencedIdxs e.trackNodes

/-- AudioEngine.setupAudioNodes: a no-op without a context and main gain;
otherwise stop and disconnect every bookkept per-clip source, clear the
trackNodes map, and rebuild one gain+panner bundle per project track
(muted tracks get gain 0; the panner clamps pan to [-1, 1]). -/
def setupAudioNodes (e : Engine) : Engine :=
  if e.ctx = none ∨ e.mainGain = none then e
  else
    { e with
      createdSources := stopRefs (referencedIdxs e.trackNodes) 0 e.createdSources
      trackNodes := e.project.tracks.foldl (fun m t =>
        mapSet t.id
          { gainValue := if t.muted then 0 else t.volume
            panValue := (createStereoPanner t.pan).panValue
            clipNodes := [] } m) [] }

/-- Does scheduleClip create a source for this clip?  True when the clip
has a decoded buffer and has not fully elapsed:
not (clipStartSamples + clipDurationSamples < currentSamples). -/
def clipScheduled (sampleRate currentSamples : ℚ) (clip : AudioClip) : Bool :=
  clip.audioBuffer.isSome &&
    !(secondsToSamples sampleRate clip.startTime + secondsToSamples sampleRate clip.duration
        < currentSamples)

/-- Recording a newly created source in the clipNodes map of the track
node bundle for the given track id (trackNodes.clipNodes.set in
scheduleClip): the source at index idx is bookkept under the clip id. -/
def updateTrackNodes (tid cid : String) (idx : ℕ)
    (tns : List (String × TrackNodeData)) : List (String × TrackNodeData) :=
  tns.map (fun kv =>
    if kv.1 = tid then (kv.1, { kv.2 with clipNodes := mapSet cid idx kv.2.clipNodes })
    else kv)

/-- AudioEngine.scheduleClip: skip silently without a context or decoded
buffer, skip a fully elapsed clip, otherwise create a source (playback
rate 2^(pitch/12)) starting at now plus the remaining wait, with in-buffer
offset for a clip already begun, and bookkeep it under the clip id in the
given track's clipNodes map.  No stop is scheduled for the source. -/
def scheduleClipE (now : ℚ) (clip : AudioClip) (tid : String) (e : Engine) : Engine :=
  if e.ctx = none then e
  else
    match clip.audioBuffer with
    | none => e
    | some buf =>
      let rate := e.state.sampleRate
      let clipStartSamples := secondsToSamples rate clip.startTime
      let cur := e.state.currentSamples
      if clipStartSamples + secondsToSamples rate clip.duration < cur then e
      else
        let src : SourceRec :=
          { clipId := clip.id
            stopped := false
            startAt := now + max 0 (samplesToSeconds rate (clipStartSamples - cur))
            offset := max 0 (samplesToSeconds rate (cur - clipStartSamples))
            bufferDuration := buf.durationSeconds
            playbackRate := pow2twelfth clip.pitch
            gainValue := clip.volume }
        { e with
          createdSources := e.createdSources ++ [src]
          trackNodes := updateTrackNodes tid clip.id e.createdSources.length e.trackNodes }

/-- Scheduling every clip of one track, in order. -/
def scheduleTrackClips (now : ℚ) (tid : String) (cs : List AudioClip) (e : Engine) : Engine :=
  cs.foldl (fun acc c => scheduleClipE now c tid acc) e

/-- One iteration of the scheduling loop of startPlayback: look the track
up in trackNodes, resolve its clipIds against allClips
(.map(find).filter(Boolean)), and schedule each resolved clip. -/
def stepTrack (now : ℚ) (acc : Engine) (track : AudioTrack) : Engine :=
  match mapGet? track.id acc.trackNodes with
  | none => acc
  | some _ =>
    scheduleTrackClips now track.id
      (track.clipIds.filterMap (fun cid => acc.allClips.find? (fun c => c.id == cid))) acc

/-- The rebuild-and-schedule body shared by startPlayback: tear down and
rebuild the mixer graph, then walk every project track scheduling its
clips against the current state position. -/
def rebuildAndSchedule (now : ℚ) (e : Engine) : Engine :=
  let e1 := setupAudioNodes e
  e1.project.tracks.foldl (stepTrack now) e1

/-- AudioEngine.stopPlayback: cancel the animation frame; without a
context nothing else happens; otherwise remember the state position in
pausedAtSamples, stop every bookkept source (stop on an already-stopped
source is caught and ignored) and clear every clipNodes map. -/
def stopPlayback (e : Engine) : Engine :=
  let e0 := { e with rafId := false }
  if e0.ctx = none then e0
  else
    { e0 with
      pausedAtSamples := e0.state.currentSamples
      createdSources := stopRefs (referencedIdxs e0.trackNodes) 0 e0.createdSources
      trackNodes := e0.trackNodes.map (fun kv => (kv.1, { kv.2 with clipNodes := [] })) }

/-- The body of AudioEngine.startPlayback after a successful resume: set
the clock reference so that position startFromSamples corresponds to the
present context time, reset the report throttle, rebuild and schedule,
and request the polling frame. -/
def startPlaybackCore (now : ℚ) (e : Engine) : Engine :=
  let rate := e.state.sampleRate
  let startFromSamples := e.state.currentSamples
  let e1 := { e with
    startTime := now - samplesToSeconds rate startFromSamples
    lastUpdateSamples := startFromSamples }
  let e2 := rebuildAndSchedule now e1
  { e2 with rafId := true }

/-- What AudioContext construction and resume do in the host environment:
the state a freshly constructed context starts in, whether construction
throws, and what resume() does (resolve leaving the context running,
resolve leaving it suspended, or reject). -/
inductive ResumeOutcome where
  | success
  | blocked
  | throws
deriving DecidableEq

/-- Host-environment behaviour for context creation and resume. -/
structure Env where
  newCtxState : CtxState
  createThrows : Bool
  resumeOutcome : ResumeOutcome
deriving DecidableEq

/-- The creation block of initializeAudioContext: new AudioContext plus a
main gain node at _state.volume, inside try/catch: a throwing
construction resolves false. -/
def createAudioContextBlock (env : Env) (e : Engine) : Except Unit (Engine × Bool) :=
  if env.createThrows then Except.ok (e, false)
  else Except.ok ({ e with ctx := some env.newCtxState, mainGain := some e.state.volume }, true)

/-- AudioEngine.initializeAudioContext.  Returns the boolean the promise
resolves with, or Except.error if an exception escapes.  The resume of
an already-existing suspended context (line 88) is NOT inside a
try/catch, so a rejecting resume escapes (Except.error); a resume that
resolves but leaves the context suspended falls through to the final
return false.  A closed context is dropped and a fresh one is created;
the creation block IS inside try/catch and resolves false on failure. -/
def initializeAudioContext (env : Env) (e : Engine) : Except Unit (Engine × Bool) :=
  match e.ctx with
  | some CtxState.running => Except.ok (e, true)
  | some CtxState.suspended =>
    match env.resumeOutcome with
    | ResumeOutcome.throws => Except.error ()
    | ResumeOutcome.success => Except.ok ({ e with ctx := some CtxState.running }, true)
    | ResumeOutcome.blocked => Except.ok (e, false)
  | some CtxState.closed => createAudioContextBlock env { e with ctx := none }
  | none => createAudioContextBlock env e

/-- AudioEngine.resumeAudioContext: initialize, then if the context is
suspended try resume inside try/catch (a rejection resolves false), and
report whether the context ended up running. -/
def resumeAudioContext (env : Env) (e : Engine) : Except Unit (Engine × Bool) :=
  match initializeAudioContext env e with
  | Except.error u => Except.error u
  | Except.ok (e1, initialized) =>
    if !initialized ∨ e1.ctx = none then Except.ok (e1, false)
    else if e1.ctx = some CtxState.suspended then
      match env.resumeOutcome with
      | ResumeOutcome.throws => Except.ok (e1, false)
      | ResumeOutcome.success => Except.ok ({ e1 with ctx := some CtxState.running }, true)
      | ResumeOutcome.blocked => Except.ok (e1, false)
    else Except.ok (e1, decide (e1.ctx = some CtxState.running))

/-- AudioEngine.startPlayback: resume the context; if it is not running
return (resolving void) with nothing scheduled; otherwise run the
playback-start body.  An exception escaping resume escapes here too. -/
def startPlayback (env : Env) (now : ℚ) (e : Engine) : Except Unit Engine :=
  match resumeAudioContext env e with
  | Except.error u => Except.error u
  | Except.ok (e1, isContextRunning) =>
    if !isContextRunning ∨ e1.ctx = none then Except.ok e1
    else Except.ok (startPlaybackCore now e1)

/-- The setTimeout callback scheduled by the seek-reconciliation branch of
updateState: restart playback only if the transport is still playing. -/
def debouncedRestart (env : Env) (now : ℚ) (e : Engine) : Except Unit Engine :=
  if e.state.isPlaying then startPlayback env now e else Except.ok e

/-- Result of AudioEngine.updateState: the new engine state plus, when the
seek-reconciliation branch fired, the debounce delay (in milliseconds) of
the scheduled restart. -/
structure UpdateStateResult where
  engine : Engine
  restartDelayMs : Option ℕ
deriving DecidableEq

/-- AudioEngine.updateState: adopt the new state/project/clips snapshot,
push the volume into the main gain if it exists, and if the transport is
playing with a live context and the incoming authoritative position
differs from the last reported position by more than 1000 samples, stop
playback now and schedule a restart 10 ms later. -/
def updateState (newState : EngineState) (newProject : EngineProject)
    (newClips : List AudioClip) (e : Engine) : UpdateStateResult :=
  let e1 := { e with state := newState, project := newProject, allClips := newClips }
  let e2 := { e1 with mainGain := e1.mainGain.map (fun _ => newState.volume) }
  if e2.state.isPlaying = true ∧ e2.ctx ≠ none ∧
      1000 < |newState.currentSamples - e2.lastUpdateSamples| then
    { engine := stopPlayback e2, restartDelayMs := some 10 }
  else
    { engine := e2, restartDelayMs := none }

/-- The position the polling callback computes from the engine clock:
secondsToSamples(max(0, now - startTime)). -/
def polledSamples (now : ℚ) (e : Engine) : ℚ :=
  secondsToSamples e.state.sampleRate (max 0 (now - e.startTime))

/-- AudioEngine.updateTime, one polling tick at context time now.
Returns the engine after the tick and the positions reported upward via
onUpdateCurrentSamples, in order.  The loop branch resets the clock
reference to loopStart, reports loopStart, then stops and restarts
playback; the restart is modelled through startPlaybackCore since the
context is running while polling (and the restart reads the engine's
_state, which the host has not yet refreshed).  The no-loop branch stops
playback and pins the report at loopEnd. -/
def updateTime (now : ℚ) (e : Engine) : Engine × List ℚ :=
  if e.ctx = none ∨ e.state.isPlaying = false then ({ e with rafId := false }, [])
  else
    let cur := polledSamples now e
    let p1 := if 1000 < |cur - e.lastUpdateSamples|
      then ({ e with lastUpdateSamples := cur }, [cur])
      else (e, [])
    let e1 := p1.1
    if e1.state.isLooping = true ∧ e1.state.loopEndSamples ≤ cur then
      let ls := e1.state.loopStartSamples
      let e2 := { e1 with
        startTime := now - samplesToSeconds e1.state.sampleRate ls
        lastUpdateSamples := ls }
      let e3 := startPlaybackCore now (stopPlayback e2)
      ({ e3 with rafId := e3.state.isPlaying }, p1.2 ++ [ls])
    else if e1.state.isLooping = false ∧ e1.state.loopEndSamples ≤ cur then
      let e2 := stopPlayback e1
      ({ e2 with rafId := e2.state.isPlaying }, p1.2 ++ [e1.state.loopEndSamples])
    else
      ({ e1 with rafId := e1.state.isPlaying }, p1.2)

/-! ## Concrete fixtures used to evaluate the definitions -/

/-- A track owning clip c1. -/
def trackT1 : AudioTrack :=
  { id := "t1", name := "Track 1", color := "blue", volume := 1, pan := 0,
    muted := false, solo := false, clipIds := ["c1"], index := 0 }

/-- A second, empty track. -/
def trackT2 : AudioTrack :=
  { id := "t2", name := "Track 2", color := "green", volume := 1, pan := 0,
    muted := false, solo := false, clipIds := [], index := 1 }

/-- A decoded clip on t1 starting at 1 s. -/
def clipC1 : AudioClip :=
  { id := "c1", name := "clip 1", trackId := "t1",
    audioBuffer := some { durationSeconds := 10 }, waveformData := [],
    startTime := 1, duration := 2, volume := 1, pitch := 0,
    color := "blue", isLoading := false }

/-- A consistent two-track app state. -/
def cs8 : AppState :=
  { project := { tracks := [trackT1, trackT2], duration := 16 }, clips := [clipC1] }

/-- An app state where clip c1 carries trackId t1 but t1's clipIds list
does not mention it: the track/clip cross-references are inconsistent. -/
def cs9 : AppState :=
  { project := { tracks := [{ trackT1 with clipIds := [] }], duration := 16 },
    clips := [clipC1] }

/-- Engine state defaults: playing, 44.1 kHz, 16 s loop region. -/
def baseState : EngineState :=
  { isPlaying := true, currentSamples := 0, isLooping := false,
    loopStartSamples := 0, loopEndSamples := 705600, volume := 1,
    sampleRate := 44100 }

/-- A just-constructed engine: no context, nothing created. -/
def engIdle : Engine :=
  { ctx := none, mainGain := none, trackNodes := [], createdSources := [],
    rafId := false, startTime := 0, pausedAtSamples := 0, lastUpdateSamples := 0,
    state := baseState, project := { tracks := [] }, allClips := [] }

/-- An engine whose context exists but is suspended (pre-user-gesture). -/
def engSusp : Engine :=
  { engIdle with ctx := some CtxState.suspended, mainGain := some 1 }

/-- Environment where resume resolves but the context stays suspended. -/
def envBlocked : Env :=
  { newCtxState := CtxState.suspended, createThrows := false,
    resumeOutcome := ResumeOutcome.blocked }

/-- Environment where resume rejects. -/
def envThrows : Env :=
  { newCtxState := CtxState.suspended, createThrows := false,
    resumeOutcome := ResumeOutcome.throws }

/-- Environment where resume succeeds. -/
def envOk : Env :=
  { newCtxState := CtxState.running, createThrows := false,
    resumeOutcome := ResumeOutcome.success }

/-- A freshly built, empty per-track node bundle. -/
def trackNodeEmpty : TrackNodeData :=
  { gainValue := 1, panValue := 0, clipNodes := [] }

/-- An engine with a running context, main gain and one empty track node. -/
def engRun : Engine :=
  { engIdle with
    ctx := some CtxState.running, mainGain := some 1,
    trackNodes := [("t1", trackNodeEmpty)] }

/-- A clip whose duration (1 s) is shorter than its decoded buffer's
native length (10 s). -/
def clipC5 : AudioClip :=
  { id := "c5", name := "clip 5", trackId := "t1",
    audioBuffer := some { durationSeconds := 10 }, waveformData := [],
    startTime := 0, duration := 1, volume := 1, pitch := 0,
    color := "blue", isLoading := false }

/-- The source scheduleClip creates for clipC5 at position 0: started at
engine time 0 with offset 0, never stopped, playing the whole 10 s
buffer at rate 1. -/
def srcC5 : SourceRec :=
  { clipId := "c5", stopped := false, startAt := 0, offset := 0,
    bufferDuration := 10, playbackRate := 1, gainValue := 1 }

/-- A clip spanning [0 s, 2 s] (fully elapsed at position 5 s). -/
def clipC6 : AudioClip :=
  { clipC5 with id := "c6", duration := 2 }

/-- engRun at playback position 5 s (220500 samples at 44.1 kHz). -/
def engC6 : Engine :=
  { engRun with state := { baseState with currentSamples := 220500 } }

/-- A clip on track t1 spanning [2 s, 3 s], inside a 2 s..6 s loop. -/
def clipA : AudioClip :=
  { id := "cA", name := "clip A", trackId := "t1",
    audioBuffer := some { durationSeconds := 10 }, waveformData := [],
    startTime := 2, duration := 1, volume := 1, pitch := 0,
    color := "blue", isLoading := false }

/-- The track owning clipA. -/
def trackTA : AudioTrack :=
  { id := "t1", name := "Track 1", color := "blue", volume := 1, pan := 0,
    muted := false, solo := false, clipIds := ["cA"], index := 0 }

/-- An engine playing with loop 2 s..6 s enabled, clock reference at
position 6 s (startTime 94 at context time 100), host snapshot position
(stale) also 6 s: the instant the polled position reaches loop end. -/
def engC2 : Engine :=
  { engIdle with
    ctx := some CtxState.running, mainGain := some 1,
    trackNodes := [("t1", trackNodeEmpty)],
    startTime := 94, lastUpdateSamples := 264600,
    state := { baseState with
               isLooping := true,
               loopStartSamples := 88200, loopEndSamples := 264600,
               currentSamples := 264600 },
    project := { tracks := [trackTA] },
    allClips := [clipA] }

/-- An engine for the seek-reconciliation witness: playing at 10 s
(last reported 441000 samples), one active source bookkept on t1. -/
def engC1 : Engine :=
  { engIdle with
    ctx := some CtxState.running, mainGain := some 1,
    trackNodes := [("t1", { trackNodeEmpty with clipNodes := [("cA", 0)] })],
    createdSources := [{ clipId := "cA", stopped := false, startAt := 0, offset := 0,
                         bufferDuration := 10, playbackRate := 1, gainValue := 1 }],
    lastUpdateSamples := 441000,
    state := { baseState with currentSamples := 441000 },
    project := { tracks := [trackTA] },
    allClips := [clipA] }

/-- The authoritative state update seeking engC1 back to 3 s (132300
samples). -/
def nsC1 : EngineState :=
  { baseState with currentSamples := 132300 }

/-- An idle-position engine used for the rebuild witness: running context,
project with one track and one schedulable clip, nothing created yet. -/
def engC3 : Engine :=
  { engIdle with
    ctx := some CtxState.running, mainGain := some 1,
    project := { tracks := [trackTA] },
    allClips := [clipA] }

/-- The engine fields the claims about clean play() failure require to be
untouched: clock reference, report throttle, pause bookkeeping,
scheduled/created nodes, polling handle and the state/project snapshot. -/
def corePreserved (e e' : Engine) : Prop :=
  e'.trackNodes = e.trackNodes ∧ e'.createdSources = e.createdSources ∧
  e'.rafId = e.rafId ∧ e'.startTime = e.startTime ∧
  e'.pausedAtSamples = e.pausedAtSamples ∧ e'.lastUpdateSamples = e.lastUpdateSamples ∧
  e'.state = e.state

/-- All clip ids owned by the given tracks, in track order (the clips the
scheduling pass of startPlayback walks). -/
def allClipIds (ts : List AudioTrack) : List String :=
  ts.foldr (fun t acc => t.clipIds ++ acc) []

/-- Everything the scheduling pass leaves untouched (it only creates
sources and rewrites trackNodes). -/
def sameResidual (e e' : Engine) : Prop :=
  e'.ctx = e.ctx ∧ e'.mainGain = e.mainGain ∧ e'.state = e.state ∧
  e'.project = e.project ∧ e'.allClips = e.allClips ∧ e'.startTime = e.startTime ∧
  e'.pausedAtSamples = e.pausedAtSamples ∧ e'.lastUpdateSamples = e.lastUpdateSamples ∧
  e'.rafId = e.rafId

/-! ## Theorems -/

/-- C10: for every finite input pan value, createStereoPanner assigns the
created panner node the pan value clamp(p, -1, 1), so the assigned pan
always lies within [-1, 1] regardless of the caller's input. -/
theorem createStereoPanner_clamps (p : ℚ) :
    (createStereoPanner p).panValue = clamp p (-1) 1 ∧
    -1 ≤ (createStereoPanner p).panValue ∧ (createStereoPanner p).panValue ≤ 1 := by
  refine ⟨rfl, ?_, ?_⟩
  · show (-1 : ℚ) ≤ min (max p (-1)) 1
    exact le_min (le_max_right _ _) (by norm_num)
  · show min (max p (-1)) 1 ≤ (1 : ℚ)
    exact min_le_right _ _

/-- C7 counterexample: the unguarded grid utilities of
src/src/utils/audioUtils.ts propagate non-finite values: at bpm = 0 the
grid duration is Infinity and snapping time 1 to that grid yields NaN. -/
theorem gridDuration_unguarded_not_finite :
    jFinite (getGridDuration_unguarded (JSNum.num 0) (JSNum.num 16)) = false ∧
    getGridDuration_unguarded (JSNum.num 0) (JSNum.num 16) = JSNum.posInf ∧
    snapToGrid_unguarded (JSNum.num 1) (JSNum.num 0) (JSNum.num 16) = JSNum.nan := by
  norm_num [getGridDuration_unguarded, snapToGrid_unguarded, JSNum.jdiv, JSNum.jmul,
    JSNum.jround, JSNum.jFinite]

/-- C7 amended: in the guarded variant (app/utils/audioUtils.ts), for
every bpm in {0, -5, NaN, Infinity}, every gridDivision in {0, NaN} and
every finite time, getGridDuration and snapToGrid return finite values
(the invalid inputs fall back to 120 BPM and the sixteenth-note grid);
the unguarded variant (src/utils/audioUtils.ts) propagates Infinity/NaN
instead. -/
theorem gridFunctions_guarded_finite (bpm gridSize : JSNum) (t : ℚ)
    (hb : bpm = JSNum.num 0 ∨ bpm = JSNum.num (-5) ∨ bpm = JSNum.nan ∨ bpm = JSNum.posInf)
    (hg : gridSize = JSNum.num 0 ∨ gridSize = JSNum.nan) :
    jFinite (getGridDuration_guarded bpm gridSize) = true ∧
    jFinite (snapToGrid_guarded (JSNum.num t) bpm gridSize) = true := by
  have hgd : getGridDuration_guarded bpm gridSize = JSNum.num (1/8) := by
    rcases hb with rfl | rfl | rfl | rfl <;> rcases hg with rfl | rfl <;>
      norm_num [getGridDuration_guarded, JSNum.jFalsy, JSNum.jIsNaN, JSNum.jle, JSNum.jdiv]
  refine ⟨by rw [hgd]; rfl, ?_⟩
  norm_num [snapToGrid_guarded, hgd, JSNum.jIsNaN, JSNum.jle, JSNum.jdiv, JSNum.jround,
    JSNum.jmul, JSNum.jFinite]

/-- Witness for the guarded grid functions at bpm 0, grid size 0,
time 1: both results are finite. -/
theorem gridFunctions_guarded_finite_witness :
    ((JSNum.num 0 = JSNum.num 0 ∨ JSNum.num 0 = JSNum.num (-5) ∨ JSNum.num 0 = JSNum.nan ∨
        JSNum.num 0 = JSNum.posInf) ∧
      ((JSNum.num 0 : JSNum) = JSNum.num 0 ∨ (JSNum.num 0 : JSNum) = JSNum.nan)) ∧
    jFinite (getGridDuration_guarded (JSNum.num 0) (JSNum.num 0)) = true ∧
    jFinite (snapToGrid_guarded (JSNum.num 1) (JSNum.num 0) (JSNum.num 0)) = true :=
  ⟨⟨Or.inl rfl, Or.inl rfl⟩,
    gridFunctions_guarded_finite (JSNum.num 0) (JSNum.num 0) 1 (Or.inl rfl) (Or.inl rfl)⟩

/-- C8 counterexample: the MOVE_CLIP_TO_TRACK reducer case stores the
given start time unclamped, so a cross-track move to -1 s produces a
state containing a clip with negative startTime. -/
theorem moveClipToTrack_negative_startTime :
    ¬ (∀ c ∈ (moveClipToTrack cs8 "c1" "t2" (-1)).clips, 0 ≤ c.startTime) := by
  decide

/-- C8 amended: moves and nudges that go through the clip-move handler
clamp the new start time to max(0, t), so they preserve nonnegativity of
every clip's startTime; the cross-track MOVE_CLIP_TO_TRACK mutation
stores the given start time unclamped and preserves nonnegativity only
when the caller passes a nonnegative time (the drag handler clamps
before dispatching). -/
theorem clipMove_clamped (s : AppState) (clipId : String) (t : ℚ)
    (targetTrackId : String) (t' : ℚ)
    (hpos : ∀ c ∈ s.clips, 0 ≤ c.startTime) (ht' : 0 ≤ t') :
    (∀ c ∈ (handleClipMove s clipId t).clips, 0 ≤ c.startTime) ∧
    (∀ c ∈ (moveClipToTrack s clipId targetTrackId t').clips, 0 ≤ c.startTime) := by
  constructor
  · intro c hc
    simp only [handleClipMove, updateClip, List.mem_map] at hc
    obtain ⟨c0, hc0, rfl⟩ := hc
    by_cases h : c0.id = clipId
    · simp only [h, if_true, applyClipUpdates, if_pos rfl, Option.getD_some]
      exact le_max_left _ _
    · simp only [if_neg h]
      exact hpos c0 hc0
  · intro c hc
    simp only [moveClipToTrack, List.mem_map] at hc
    obtain ⟨c0, hc0, rfl⟩ := hc
    by_cases h : c0.id = clipId
    · simp only [h, if_true, if_pos rfl]
      exact ht'
    · simp only [if_neg h]
      exact hpos c0 hc0

/-- C8 witness: from a state with all clip start times nonnegative, a
handler move to -5 s and a cross-track move to 0 s both leave every
startTime nonnegative. -/
theorem clipMove_clamped_witness :
    (∀ c ∈ (handleClipMove cs8 "c1" (-5)).clips, 0 ≤ c.startTime) ∧
    (∀ c ∈ (moveClipToTrack cs8 "c1" "t2" 0).clips, 0 ≤ c.startTime) :=
  clipMove_clamped cs8 "c1" (-5) "t2" 0 (by decide) (by decide)

/-- C9 counterexample: REMOVE_TRACK filters clips by membership in the
removed track's clipIds, not by their trackId, so from a state where a
clip references t1 without being listed there, removing t1 leaves a clip
whose trackId still references the removed track. -/
theorem removeTrack_orphan :
    ¬ (∀ c ∈ (removeTrack cs9 "t1").clips, c.trackId ≠ "t1") := by
  decide

/-- C9 amended: for every state satisfying the track/clip consistency the
reducer maintains (every clip whose trackId references a track is listed
in that track's clipIds) and containing the given track, REMOVE_TRACK
removes every track with that id and every clip it owned, leaves no clip
referencing the removed track, and recomputes the project duration from
the remaining tracks and clips. -/
theorem removeTrack_cascades (s : AppState) (tid : String)
    (hex : ∃ tr ∈ s.project.tracks, tr.id = tid)
    (hcons : ∀ c ∈ s.clips, ∀ tr ∈ s.project.tracks, c.trackId = tr.id → c.id ∈ tr.clipIds) :
    (∀ tr ∈ (removeTrack s tid).project.tracks, tr.id ≠ tid) ∧
    (∀ c ∈ (removeTrack s tid).clips, c.trackId ≠ tid) ∧
    (removeTrack s tid).project.duration =
      calculateProjectDuration
        (tracksWithClips (removeTrack s tid).project.tracks (removeTrack s tid).clips) := by
  obtain ⟨tr0, htr0mem, htr0id⟩ := hex
  obtain ⟨trR, hfR⟩ : ∃ trR, s.project.tracks.find? (fun track => track.id == tid) = some trR := by
    cases h : s.project.tracks.find? (fun track => track.id == tid) with
    | some trR => exact ⟨trR, rfl⟩
    | none =>
      exfalso
      have := List.find?_eq_none.mp h tr0 htr0mem
      simp [htr0id] at this
  have hRmem : trR ∈ s.project.tracks := List.mem_of_find?_eq_some hfR
  have hRid : trR.id = tid := by
    have := List.find?_some hfR
    simpa using this
  simp only [removeTrack, hfR]
  refine ⟨?_, ?_, by trivial⟩
  · intro tr htr
    have := List.of_mem_filter htr
    simpa using this
  · intro c hc
    have hmemf := List.of_mem_filter hc
    have hcs : c ∈ s.clips := List.mem_of_mem_filter hc
    intro hct
    have hcid : c.id ∈ trR.clipIds := hcons c hcs trR hRmem (by rw [hct, hRid])
    simp [hcid] at hmemf

/-- C9 witness: removing t1 from the consistent two-track state removes
the track, removes its clip c1, leaves no reference to t1, and
recomputes the duration. -/
theorem removeTrack_cascades_witness :
    (∀ tr ∈ (removeTrack cs8 "t1").project.tracks, tr.id ≠ "t1") ∧
    (∀ c ∈ (removeTrack cs8 "t1").clips, c.trackId ≠ "t1") ∧
    (removeTrack cs8 "t1").project.duration =
      calculateProjectDuration
        (tracksWithClips (removeTrack cs8 "t1").project.tracks (removeTrack cs8 "t1").clips) :=
  removeTrack_cascades cs8 "t1" (by decide) (by decide)

theorem corePreserved_refl (e : Engine) : corePreserved e e :=
  ⟨rfl, rfl, rfl, rfl, rfl, rfl, rfl⟩

theorem corePreserved_any_ctxGain (e e1 : Engine) (c : Option CtxState) (g : Option ℚ)
    (h : corePreserved e e1) : corePreserved e { e1 with ctx := c, mainGain := g } :=
  h

theorem initialize_corePreserved (env : Env) (e e' : Engine) (b : Bool)
    (h : initializeAudioContext env e = Except.ok (e', b)) : corePreserved e e' := by
  unfold initializeAudioContext createAudioContextBlock at h
  split at h
  all_goals try split at h
  all_goals try exact Except.noConfusion h
  all_goals simp only [Except.ok.injEq, Prod.mk.injEq] at h
  all_goals obtain ⟨rfl, -⟩ := h
  all_goals exact ⟨rfl, rfl, rfl, rfl, rfl, rfl, rfl⟩

theorem resume_corePreserved (env : Env) (e e' : Engine) (b : Bool)
    (h : resumeAudioContext env e = Except.ok (e', b)) : corePreserved e e' := by
  unfold resumeAudioContext at h
  split at h
  · exact Except.noConfusion h
  · rename_i e1 initialized heq
    obtain ⟨h1, h2, h3, h4, h5, h6, h7⟩ := initialize_corePreserved env e e1 initialized heq
    split at h
    all_goals try split at h
    all_goals try split at h
    all_goals simp only [Except.ok.injEq, Prod.mk.injEq] at h
    all_goals obtain ⟨rfl, -⟩ := h
    all_goals exact ⟨h1, h2, h3, h4, h5, h6, h7⟩

/-- C4 counterexample: with an existing suspended context whose resume()
rejects, startPlayback propagates the exception to its caller — the
resume awaited inside initializeAudioContext is outside every try/catch
— so the claim that no exception escapes fails. -/
theorem startPlayback_exception_escapes :
    startPlayback envThrows 0 engSusp = Except.error () := rfl

/-- C4 amended: whenever resume fails without throwing (resumeAudioContext
resolves false), startPlayback resolves normally with nothing scheduled
and the engine's clock reference, report throttle, pause bookkeeping,
scheduled nodes, created sources, polling handle and state snapshot all
unchanged; the explicit failure signal is the boolean of
resumeAudioContext — startPlayback itself resolves void — and a
rejecting resume() on an existing suspended context escapes
startPlayback as an exception. -/
theorem startPlayback_fail_clean (env : Env) (now : ℚ) (e e1 : Engine)
    (h : resumeAudioContext env e = Except.ok (e1, false)) :
    startPlayback env now e = Except.ok e1 ∧ corePreserved e e1 := by
  refine ⟨?_, resume_corePreserved env e e1 false h⟩
  unfold startPlayback
  rw [h]
  simp

/-- C4 witness: a suspended context with a blocked (non-throwing) resume:
startPlayback returns normally and the engine is exactly as before. -/
theorem startPlayback_fail_clean_witness :
    startPlayback envBlocked 0 engSusp = Except.ok engSusp ∧
    corePreserved engSusp engSusp :=
  startPlayback_fail_clean envBlocked 0 engSusp engSusp rfl

/-- C5 (evaluation of the code at the failing input): scheduling clipC5 —
duration 1 s, decoded buffer 10 s — at position 0 creates the source
srcC5 via source.start(when, offset) with no duration argument and no
scheduled stop: the source is active and its natural end lies 10 s after
its start (the buffer's full native length), not at the 1 s shortened
duration. -/
theorem scheduleClip_no_stop_at_duration :
    (scheduleClipE 0 clipC5 "t1" engRun).createdSources = [srcC5] ∧
    srcC5.stopped = false ∧
    naturalEndTime srcC5 = srcC5.startAt + 10 ∧
    clipC5.duration = 1 := by
  refine ⟨?_, rfl, by norm_num [naturalEndTime, srcC5], rfl⟩
  norm_num [scheduleClipE, engRun, engIdle, baseState, clipC5, secondsToSamples,
    samplesToSeconds, jsRound, pow2twelfth, srcC5]
  decide

/-- C6: for every engine with a live audio context and every clip with a
decoded buffer, scheduleClip creates no source exactly when
clipStartSamples + clipDurationSamples < currentPositionSamples (the
clip has fully elapsed); every clip with a not-yet-elapsed portion is
scheduled. -/
theorem scheduleClip_skips_iff (now : ℚ) (clip : AudioClip) (tid : String) (e : Engine)
    (hctx : e.ctx ≠ none) (hbuf : clip.audioBuffer.isSome = true) :
    scheduleClipE now clip tid e = e ↔
      secondsToSamples e.state.sampleRate clip.startTime +
        secondsToSamples e.state.sampleRate clip.duration < e.state.currentSamples := by
  obtain ⟨buf, hb⟩ := Option.isSome_iff_exists.mp hbuf
  constructor
  · intro he
    by_contra hlt
    have hlen : (scheduleClipE now clip tid e).createdSources.length
        = e.createdSources.length + 1 := by
      simp [scheduleClipE, hb, hctx, hlt]
    rw [he] at hlen
    omega
  · intro hlt
    simp [scheduleClipE, hb, hctx, hlt]

/-- C6 witness: a clip with startTime 0 and duration 2 s is not scheduled
when the current position is 5 s (220500 samples at 44.1 kHz). -/
theorem scheduleClip_skips_iff_witness :
    scheduleClipE 0 clipC6 "t1" engC6 = engC6 :=
  (scheduleClip_skips_iff 0 clipC6 "t1" engC6 (by decide) rfl).mpr
    (by norm_num [engC6, engRun, engIdle, baseState, clipC6, clipC5,
      secondsToSamples, jsRound])

theorem sameResidual_refl (e : Engine) : sameResidual e e :=
  ⟨rfl, rfl, rfl, rfl, rfl, rfl, rfl, rfl, rfl⟩

theorem sameResidual_trans {a b c : Engine} (h1 : sameResidual a b) (h2 : sameResidual b c) :
    sameResidual a c := by
  obtain ⟨x1, x2, x3, x4, x5, x6, x7, x8, x9⟩ := h1
  obtain ⟨y1, y2, y3, y4, y5, y6, y7, y8, y9⟩ := h2
  exact ⟨y1.trans x1, y2.trans x2, y3.trans x3, y4.trans x4, y5.trans x5,
    y6.trans x6, y7.trans x7, y8.trans x8, y9.trans x9⟩

theorem scheduleClipE_sameResidual (now : ℚ) (c : AudioClip) (tid : String) (e : Engine) :
    sameResidual e (scheduleClipE now c tid e) := by
  by_cases h1 : e.ctx = none
  · simp only [scheduleClipE, if_pos h1]
    exact sameResidual_refl e
  · cases hb : c.audioBuffer with
    | none =>
      simp only [scheduleClipE, if_neg h1, hb]
      exact sameResidual_refl e
    | some buf =>
      by_cases h2 : secondsToSamples e.state.sampleRate c.startTime +
          secondsToSamples e.state.sampleRate c.duration < e.state.currentSamples
      · simp only [scheduleClipE, if_neg h1, hb, if_pos h2]
        exact sameResidual_refl e
      · simp only [scheduleClipE, if_neg h1, hb, if_neg h2]
        exact ⟨rfl, rfl, rfl, rfl, rfl, rfl, rfl, rfl, rfl⟩

theorem foldl_sameResidual {α : Type} (f : Engine → α → Engine)
    (hf : ∀ e a, sameResidual e (f e a)) :
    ∀ (l : List α) (e : Engine), sameResidual e (l.foldl f e) := by
  intro l
  induction l with
  | nil => intro e; exact sameResidual_refl e
  | cons a rest ih => intro e; exact sameResidual_trans (hf e a) (ih (f e a))

theorem scheduleTrackClips_sameResidual (now : ℚ) (tid : String) (cs : List AudioClip)
    (e : Engine) : sameResidual e (scheduleTrackClips now tid cs e) :=
  foldl_sameResidual _ (fun e' c => scheduleClipE_sameResidual now c tid e') cs e

theorem stepTrack_sameResidual (now : ℚ) (e : Engine) (t : AudioTrack) :
    sameResidual e (stepTrack now e t) := by
  unfold stepTrack
  split
  · exact sameResidual_refl e
  · exact scheduleTrackClips_sameResidual now _ _ e

theorem setupAudioNodes_sameResidual (e : Engine) : sameResidual e (setupAudioNodes e) := by
  unfold setupAudioNodes
  split
  · exact sameResidual_refl e
  · exact ⟨rfl, rfl, rfl, rfl, rfl, rfl, rfl, rfl, rfl⟩

theorem rebuildAndSchedule_sameResidual (now : ℚ) (e : Engine) :
    sameResidual e (rebuildAndSchedule now e) := by
  unfold rebuildAndSchedule
  exact sameResidual_trans (setupAudioNodes_sameResidual e)
    (foldl_sameResidual _ (fun e' t => stepTrack_sameResidual now e' t) _ _)

theorem stopRefs_stopped (refs : List ℕ) :
    ∀ (l : List SourceRec) (k : ℕ),
      (∀ i ∈ activeIdxs k l, i ∈ refs) → ∀ s ∈ stopRefs refs k l, s.stopped = true := by
  intro l
  induction l with
  | nil =>
    intro k _ s hs
    simp [stopRefs] at hs
  | cons a rest ih =>
    intro k h s hs
    simp only [stopRefs, List.mem_cons] at hs
    rcases hs with rfl | hs'
    · by_cases ha : a.stopped = true
      · by_cases hk : k ∈ refs <;> simp [hk, ha]
      · have hk : k ∈ refs := by
          apply h
          simp only [activeIdxs, ha]
          simp
        simp [hk]
    · refine ih (k + 1) (fun i hi => h i ?_) s hs'
      simp only [activeIdxs]
      exact List.mem_append_right _ hi

theorem resume_running (env : Env) (e : Engine) (h : e.ctx = some CtxState.running) :
    resumeAudioContext env e = Except.ok (e, true) := by
  unfold resumeAudioContext initializeAudioContext
  rw [h]
  simp [h]

/-- C1: while Playing with a live context, a state update whose
authoritative position differs from the engine's last-reported position
by more than 1000 samples stops every created source, schedules a
restart after the 10 ms debounce, and the restart adopts the new
authoritative position as the clock reference: afterwards the position
polled d seconds later reads as the new authoritative position advanced
by d — a continuation from the new position, not the old one. -/
theorem external_seek_reconciles (e : Engine) (ns : EngineState) (np : EngineProject)
    (ncl : List AudioClip) (env : Env) (now2 : ℚ)
    (hplay : ns.isPlaying = true)
    (hctx : e.ctx = some CtxState.running)
    (hdiff : 1000 < |ns.currentSamples - e.lastUpdateSamples|)
    (hinv : EngineInv e)
    (hpos : 0 ≤ ns.currentSamples) (hrate : 0 < ns.sampleRate) :
    (updateState ns np ncl e).restartDelayMs = some 10 ∧
    (∀ s ∈ (updateState ns np ncl e).engine.createdSources, s.stopped = true) ∧
    (∃ e2, debouncedRestart env now2 (updateState ns np ncl e).engine = Except.ok e2 ∧
      e2.startTime = now2 - samplesToSeconds ns.sampleRate ns.currentSamples ∧
      e2.lastUpdateSamples = ns.currentSamples ∧
      ∀ d : ℚ, 0 ≤ d → polledSamples (now2 + d) e2 =
        secondsToSamples ns.sampleRate (samplesToSeconds ns.sampleRate ns.currentSamples + d)) := by
  have hupd : updateState ns np ncl e =
      { engine := stopPlayback { e with
          state := ns, project := np, allClips := ncl,
          mainGain := e.mainGain.map (fun _ => ns.volume) },
        restartDelayMs := some 10 } := by
    simp only [updateState]
    split
    · rfl
    · rename_i hcond
      exact absurd ⟨hplay, by simp [hctx], hdiff⟩ hcond
  rw [hupd]
  set eU : Engine := { e with
    state := ns, project := np, allClips := ncl,
    mainGain := e.mainGain.map (fun _ => ns.volume) } with heU
  have hstop : stopPlayback eU =
      { eU with
        rafId := false, pausedAtSamples := ns.currentSamples,
        createdSources := stopRefs (referencedIdxs eU.trackNodes) 0 eU.createdSources,
        trackNodes := eU.trackNodes.map (fun kv => (kv.1, { kv.2 with clipNodes := [] })) } := by
    simp only [stopPlayback]
    rw [if_neg (show ¬(e.ctx = none) by simp [hctx])]
  refine ⟨rfl, ?_, ?_⟩
  · intro s hs
    rw [hstop] at hs
    exact stopRefs_stopped _ _ 0 hinv s hs
  · rw [hstop]
    set eS : Engine := { eU with
      rafId := false, pausedAtSamples := ns.currentSamples,
      createdSources := stopRefs (referencedIdxs eU.trackNodes) 0 eU.createdSources,
      trackNodes := eU.trackNodes.map (fun kv => (kv.1, { kv.2 with clipNodes := [] })) }
      with heS
    have hSctx : eS.ctx = some CtxState.running := hctx
    have hrestart : debouncedRestart env now2 eS = Except.ok (startPlaybackCore now2 eS) := by
      simp only [debouncedRestart]
      rw [if_pos (show eS.state.isPlaying = true from hplay)]
      simp only [startPlayback]
      rw [resume_running env eS hSctx]
      simp [hSctx, hctx]
    refine ⟨startPlaybackCore now2 eS, hrestart, ?_, ?_, ?_⟩
    all_goals
      obtain ⟨r1, r2, r3, r4, r5, r6, r7, r8, r9⟩ :=
        rebuildAndSchedule_sameResidual now2
          { eS with
            startTime := now2 - samplesToSeconds eS.state.sampleRate eS.state.currentSamples
            lastUpdateSamples := eS.state.currentSamples }
    · exact r6
    · exact r8
    · intro d hd
      have hX : (0:ℚ) ≤ samplesToSeconds ns.sampleRate ns.currentSamples :=
        div_nonneg hpos (le_of_lt hrate)
      have hstart : (startPlaybackCore now2 eS).startTime
          = now2 - samplesToSeconds ns.sampleRate ns.currentSamples := r6
      have hstate : (startPlaybackCore now2 eS).state = ns := r3
      have harg : now2 + d - (startPlaybackCore now2 eS).startTime
          = samplesToSeconds ns.sampleRate ns.currentSamples + d := by
        rw [hstart]; ring
      simp only [polledSamples, hstate, harg, max_eq_right (add_nonneg hX hd)]

/-- C1 witness: playing at 10 s (441000 samples last reported) with one
active source, the host sets the authoritative position to 3 s (132300
samples): the restart is debounced by 10 ms, the source is stopped, and
after the restart at context time 50 the clock reference and subsequent
polls continue from 3 s, not 10 s. -/
theorem external_seek_reconciles_witness :
    (updateState nsC1 { tracks := [trackTA] } [clipA] engC1).restartDelayMs = some 10 ∧
    (∀ s ∈ (updateState nsC1 { tracks := [trackTA] } [clipA] engC1).engine.createdSources,
        s.stopped = true) ∧
    (∃ e2, debouncedRestart envOk 50
        (updateState nsC1 { tracks := [trackTA] } [clipA] engC1).engine = Except.ok e2 ∧
      e2.startTime = 50 - samplesToSeconds nsC1.sampleRate nsC1.currentSamples ∧
      e2.lastUpdateSamples = nsC1.currentSamples ∧
      ∀ d : ℚ, 0 ≤ d → polledSamples (50 + d) e2 =
        secondsToSamples nsC1.sampleRate (samplesToSeconds nsC1.sampleRate nsC1.currentSamples + d)) :=
  external_seek_reconciles engC1 nsC1 { tracks := [trackTA] } [clipA] envOk 50
    rfl rfl
    (by simp only [nsC1, baseState, engC1, engIdle]
        rw [abs_sub_comm, abs_of_nonneg (by norm_num)]
        norm_num)
    (by unfold EngineInv; decide) (by decide) (by decide)

/-- C2 (evaluation of the code at the failing input): engine looping over
2 s..6 s, polled position reaching loop end (6 s = 264600 samples) at
context time 100 with the host's stale snapshot position also at 6 s.
The tick reports loopStart (88200) — but the synchronous restart inside
the wrap branch overwrites the just-reset clock reference with the stale
snapshot position: the resulting startTime is 94 (position 6 s), not 98
(position 2 s = loopStart), the next poll reads 264600 again, and clipA
(spanning 2 s..3 s, inside the loop) is NOT rescheduled — no active
source exists after the tick. -/
theorem loopWrap_stale_restart :
    (updateTime 100 engC2).2 = [88200] ∧
    (updateTime 100 engC2).1.startTime = 94 ∧
    100 - samplesToSeconds engC2.state.sampleRate engC2.state.loopStartSamples = 98 ∧
    activeClipIds (updateTime 100 engC2).1 = [] ∧
    polledSamples 100 (updateTime 100 engC2).1 = 264600 := by
  norm_num [updateTime, polledSamples, engC2, engIdle, baseState, trackNodeEmpty,
    secondsToSamples, samplesToSeconds, jsRound, stopPlayback, startPlaybackCore,
    rebuildAndSchedule, setupAudioNodes, stopRefs, referencedIdxs, stepTrack,
    scheduleTrackClips, scheduleClipE, updateTrackNodes, mapGet?, mapSet, trackTA, clipA,
    activeClipIds, activeIds, createStereoPanner, clamp, pow2twelfth, max_def]
  simp only [reduceCtorEq, if_false, ite_false]
  norm_num [stepTrack, scheduleTrackClips, scheduleClipE, updateTrackNodes, mapGet?, mapSet,
    secondsToSamples, samplesToSeconds, jsRound, trackTA, clipA, activeIds,
    stopRefs, referencedIdxs, pow2twelfth, max_def, List.filterMap_cons,
    List.filterMap_nil, List.foldl_cons, List.foldl_nil]

theorem mapSet_fresh {α : Type} (k : String) (v : α) :
    ∀ (m : List (String × α)), k ∉ m.map Prod.fst → mapSet k v m = m ++ [(k, v)] := by
  intro m
  induction m with
  | nil => intro _; rfl
  | cons kv rest ih =>
    intro h
    simp only [List.map_cons, List.mem_cons] at h
    push_neg at h
    have hne : ¬ (kv.1 = k) := fun he => h.1 he.symm
    simp only [mapSet, if_neg hne, List.cons_append]
    rw [ih h.2]

theorem activeIds_append (l1 l2 : List SourceRec) :
    activeIds (l1 ++ l2) = activeIds l1 ++ activeIds l2 := by
  simp [activeIds, List.filter_append]

theorem activeIds_nil_of_stopped (l : List SourceRec) (h : ∀ s ∈ l, s.stopped = true) :
    activeIds l = [] := by
  simp only [activeIds, List.map_eq_nil_iff]
  rw [List.filter_eq_nil_iff]
  intro a ha
  simp [h a ha]

theorem activeIdxs_nil_of_stopped :
    ∀ (l : List SourceRec) (k : ℕ), (∀ s ∈ l, s.stopped = true) → activeIdxs k l = [] := by
  intro l
  induction l with
  | nil => intro k _; rfl
  | cons a rest ih =>
    intro k h
    simp only [activeIdxs, h a (List.mem_cons_self a rest), if_true]
    exact ih (k + 1) (fun s hs => h s (List.mem_cons_of_mem a hs))

theorem activeIdxs_mem_of_get? :
    ∀ (l : List SourceRec) (k j : ℕ) (s : SourceRec),
      l.get? j = some s → s.stopped = false → (k + j) ∈ activeIdxs k l := by
  intro l
  induction l with
  | nil => intro k j s hj; simp at hj
  | cons a rest ih =>
    intro k j s hj hs
    cases j with
    | zero =>
      simp only [List.get?] at hj
      obtain rfl : a = s := by injection hj
      simp [activeIdxs, hs]
    | succ j' =>
      simp only [List.get?] at hj
      have := ih (k + 1) j' s hj hs
      have harith : k + (j' + 1) = k + 1 + j' := by omega
      rw [harith]
      simp only [activeIdxs]
      exact List.mem_append_right _ this

theorem get?_of_mem_activeIdxs :
    ∀ (l : List SourceRec) (k i : ℕ), i ∈ activeIdxs k l →
      ∃ j s, l.get? j = some s ∧ s.stopped = false ∧ i = k + j := by
  intro l
  induction l with
  | nil => intro k i hi; simp [activeIdxs] at hi
  | cons a rest ih =>
    intro k i hi
    simp only [activeIdxs] at hi
    rcases List.mem_append.mp hi with hl | hr
    · by_cases ha : a.stopped = true
      · simp [ha] at hl
      · simp only [if_neg ha, List.mem_singleton] at hl
        exact ⟨0, a, rfl, by simpa using ha, by omega⟩
    · obtain ⟨j, s, hj, hs, hi'⟩ := ih (k + 1) i hr
      exact ⟨j + 1, s, by simpa using hj, hs, by omega⟩

theorem stopRefs_length (refs : List ℕ) :
    ∀ (l : List SourceRec) (k : ℕ), (stopRefs refs k l).length = l.length := by
  intro l
  induction l with
  | nil => intro k; rfl
  | cons a rest ih => intro k; simp [stopRefs, ih (k + 1)]

theorem referencedIdxs_cons (kv : String × TrackNodeData)
    (rest : List (String × TrackNodeData)) :
    referencedIdxs (kv :: rest)
      = kv.2.clipNodes.map (fun p => p.2) ++ referencedIdxs rest := by
  simp [referencedIdxs]

theorem allNodeKeys_cons (kv : String × TrackNodeData)
    (rest : List (String × TrackNodeData)) :
    allNodeKeys (kv :: rest)
      = kv.2.clipNodes.map (fun p => p.1) ++ allNodeKeys rest := by
  simp [allNodeKeys]

theorem mapGet?_some_mem {α : Type} (k : String) :
    ∀ (m : List (String × α)) (v : α), mapGet? k m = some v → k ∈ m.map Prod.fst := by
  intro m
  induction m with
  | nil => intro v h; simp [mapGet?] at h
  | cons kv rest ih =>
    intro v h
    simp only [mapGet?] at h
    by_cases hk : kv.1 = k
    · simp [hk]
    · rw [if_neg hk] at h
      simp only [List.map_cons, List.mem_cons]
      exact Or.inr (ih v h)

theorem updateTrackNodes_cons (tid cid : String) (idx : ℕ) (kv : String × TrackNodeData)
    (rest : List (String × TrackNodeData)) :
    updateTrackNodes tid cid idx (kv :: rest)
      = (if kv.1 = tid then (kv.1, { kv.2 with clipNodes := mapSet cid idx kv.2.clipNodes })
         else kv) :: updateTrackNodes tid cid idx rest := rfl

theorem updateTrackNodes_fst (tid cid : String) (idx : ℕ) :
    ∀ (tns : List (String × TrackNodeData)),
      (updateTrackNodes tid cid idx tns).map Prod.fst = tns.map Prod.fst := by
  intro tns
  induction tns with
  | nil => rfl
  | cons kv rest ih =>
    rw [updateTrackNodes_cons]
    by_cases hk : kv.1 = tid
    · simp [hk, ih]
    · simp [hk, ih]

theorem updateTrackNodes_refs_mono (tid cid : String) (idx : ℕ) :
    ∀ (tns : List (String × TrackNodeData)), cid ∉ allNodeKeys tns →
      ∀ i ∈ referencedIdxs tns, i ∈ referencedIdxs (updateTrackNodes tid cid idx tns) := by
  intro tns
  induction tns with
  | nil => intro _ i hi; simp [referencedIdxs] at hi
  | cons kv rest ih =>
    intro h i hi
    rw [allNodeKeys_cons] at h
    simp only [List.mem_append] at h
    push_neg at h
    rw [referencedIdxs_cons] at hi
    rw [updateTrackNodes_cons]
    rcases List.mem_append.mp hi with hl | hr
    · by_cases hk : kv.1 = tid
      · rw [if_pos hk, referencedIdxs_cons]
        apply List.mem_append_left
        simp only [mapSet_fresh cid idx kv.2.clipNodes h.1, List.map_append]
        exact List.mem_append_left _ hl
      · rw [if_neg hk, referencedIdxs_cons]
        exact List.mem_append_left _ hl
    · by_cases hk : kv.1 = tid
      · rw [if_pos hk, referencedIdxs_cons]
        exact List.mem_append_right _ (ih h.2 i hr)
      · rw [if_neg hk, referencedIdxs_cons]
        exact List.mem_append_right _ (ih h.2 i hr)

theorem updateTrackNodes_refs_new (tid cid : String) (idx : ℕ) :
    ∀ (tns : List (String × TrackNodeData)), cid ∉ allNodeKeys tns →
      tid ∈ tns.map Prod.fst →
      idx ∈ referencedIdxs (updateTrackNodes tid cid idx tns) := by
  intro tns
  induction tns with
  | nil => intro _ ht; simp at ht
  | cons kv rest ih =>
    intro h ht
    rw [allNodeKeys_cons] at h
    simp only [List.mem_append] at h
    push_neg at h
    rw [updateTrackNodes_cons]
    by_cases hk : kv.1 = tid
    · rw [if_pos hk, referencedIdxs_cons]
      apply List.mem_append_left
      simp only [mapSet_fresh cid idx kv.2.clipNodes h.1, List.map_append]
      simp
    · rw [if_neg hk, referencedIdxs_cons]
      apply List.mem_append_right
      apply ih h.2
      simp only [List.map_cons, List.mem_cons] at ht
      rcases ht with ht | ht
      · exact absurd ht.symm hk
      · exact ht

theorem mapSet_mem_keys {α : Type} (k : String) (v : α) :
    ∀ (m : List (String × α)) (x : String),
      x ∈ (mapSet k v m).map (fun p => p.1) → x ∈ m.map (fun p => p.1) ∨ x = k := by
  intro m
  induction m with
  | nil =>
    intro x hx
    simp [mapSet] at hx
    exact Or.inr hx
  | cons kv rest ih =>
    intro x hx
    simp only [mapSet] at hx
    by_cases hk : kv.1 = k
    · rw [if_pos hk] at hx
      simp only [List.map_cons, List.mem_cons] at hx ⊢
      rcases hx with rfl | hx
      · exact Or.inr rfl
      · exact Or.inl (Or.inr hx)
    · rw [if_neg hk] at hx
      simp only [List.map_cons, List.mem_cons] at hx ⊢
      rcases hx with rfl | hx
      · exact Or.inl (Or.inl rfl)
      · rcases ih x hx with hx' | hx'
        · exact Or.inl (Or.inr hx')
        · exact Or.inr hx'

theorem updateTrackNodes_keys_sub (tid cid : String) (idx : ℕ) :
    ∀ (tns : List (String × TrackNodeData)),
      ∀ x ∈ allNodeKeys (updateTrackNodes tid cid idx tns),
        x ∈ allNodeKeys tns ∨ x = cid := by
  intro tns
  induction tns with
  | nil => intro x hx; simp [updateTrackNodes, allNodeKeys] at hx
  | cons kv rest ih =>
    intro x hx
    rw [updateTrackNodes_cons] at hx
    rw [allNodeKeys_cons] at hx ⊢
    by_cases hk : kv.1 = tid
    · rw [if_pos hk] at hx
      rcases List.mem_append.mp hx with hl | hr
      · rcases mapSet_mem_keys cid idx kv.2.clipNodes x hl with hx' | hx'
        · exact Or.inl (List.mem_append_left _ hx')
        · exact Or.inr hx'
      · rcases ih x hr with hx' | hx'
        · exact Or.inl (List.mem_append_right _ hx')
        · exact Or.inr hx'
    · rw [if_neg hk] at hx
      rcases List.mem_append.mp hx with hl | hr
      · exact Or.inl (List.mem_append_left _ hl)
      · rcases ih x hr with hx' | hx'
        · exact Or.inl (List.mem_append_right _ hx')
        · exact Or.inr hx'

theorem scheduleClipE_cases (now : ℚ) (c : AudioClip) (tid : String) (e : Engine)
    (hctx : e.ctx ≠ none) :
    scheduleClipE now c tid e = e ∨
    ∃ src : SourceRec, src.clipId = c.id ∧ src.stopped = false ∧
      (scheduleClipE now c tid e).createdSources = e.createdSources ++ [src] ∧
      (scheduleClipE now c tid e).trackNodes
        = updateTrackNodes tid c.id e.createdSources.length e.trackNodes := by
  cases hb : c.audioBuffer with
  | none =>
    left
    simp [scheduleClipE, hctx, hb]
  | some buf =>
    by_cases h2 : secondsToSamples e.state.sampleRate c.startTime +
        secondsToSamples e.state.sampleRate c.duration < e.state.currentSamples
    · left
      simp [scheduleClipE, hctx, hb, h2]
    · right
      refine ⟨{ clipId := c.id
                stopped := false
                startAt := now + max 0 (samplesToSeconds e.state.sampleRate
                  (secondsToSamples e.state.sampleRate c.startTime - e.state.currentSamples))
                offset := max 0 (samplesToSeconds e.state.sampleRate
                  (e.state.currentSamples - secondsToSamples e.state.sampleRate c.startTime))
                bufferDuration := buf.durationSeconds
                playbackRate := pow2twelfth c.pitch
                gainValue := c.volume }, rfl, rfl, ?_, ?_⟩
      · simp [scheduleClipE, hctx, hb, h2]
      · simp [scheduleClipE, hctx, hb, h2]

theorem scheduleTrackClips_spec (now : ℚ) (tid : String) :
    ∀ (cs : List AudioClip) (e : Engine),
      e.ctx ≠ none →
      tid ∈ e.trackNodes.map Prod.fst →
      (cs.map (fun x => x.id)).Nodup →
      (∀ x ∈ allNodeKeys e.trackNodes, x ∉ cs.map (fun x => x.id)) →
      EngineInv e →
      EngineInv (scheduleTrackClips now tid cs e) ∧
      (∃ S, activeIds (scheduleTrackClips now tid cs e).createdSources
          = activeIds e.createdSources ++ S ∧ List.Sublist S (cs.map (fun x => x.id))) ∧
      (∀ x ∈ allNodeKeys (scheduleTrackClips now tid cs e).trackNodes,
          x ∈ allNodeKeys e.trackNodes ∨ x ∈ cs.map (fun x => x.id)) ∧
      (∃ t, (scheduleTrackClips now tid cs e).createdSources = e.createdSources ++ t) := by
  intro cs
  induction cs with
  | nil =>
    intro e hctx htid hnd hdisj hinv
    have h0 : scheduleTrackClips now tid [] e = e := rfl
    rw [h0]
    refine ⟨hinv, ⟨[], by simp, List.nil_sublist _⟩, ?_, ⟨[], by simp⟩⟩
    intro x hx
    exact Or.inl hx
  | cons c cs' ih =>
    intro e hctx htid hnd hdisj hinv
    have hmap : (c :: cs').map (fun x => x.id) = c.id :: cs'.map (fun x => x.id) := rfl
    rw [hmap] at hnd hdisj ⊢
    obtain ⟨hcnot, hnd'⟩ := List.nodup_cons.mp hnd
    have hstep : scheduleTrackClips now tid (c :: cs') e
        = scheduleTrackClips now tid cs' (scheduleClipE now c tid e) := rfl
    rw [hstep]
    obtain ⟨res1, res2, res3, res4, res5, res6, res7, res8, res9⟩ :=
      scheduleClipE_sameResidual now c tid e
    rcases scheduleClipE_cases now c tid e hctx with heq | ⟨src, hsrcid, hsrcact, hcs, htn⟩
    · rw [heq]
      have hdisj' : ∀ x ∈ allNodeKeys e.trackNodes, x ∉ cs'.map (fun x => x.id) :=
        fun x hx hmem => hdisj x hx (List.mem_cons_of_mem _ hmem)
      obtain ⟨i1, ⟨S, hS, hSub⟩, i3, i4⟩ := ih e hctx htid hnd' hdisj' hinv
      exact ⟨i1, ⟨S, hS, List.Sublist.cons _ hSub⟩,
        fun x hx => (i3 x hx).imp id (List.mem_cons_of_mem _), i4⟩
    · have hctx1 : (scheduleClipE now c tid e).ctx ≠ none := by
        rw [res1]; exact hctx
      have htid1 : tid ∈ (scheduleClipE now c tid e).trackNodes.map Prod.fst := by
        rw [htn, updateTrackNodes_fst]; exact htid
      have hcidfresh : c.id ∉ allNodeKeys e.trackNodes :=
        fun hmem => hdisj c.id hmem (List.mem_cons_self _ _)
      have hinv1 : EngineInv (scheduleClipE now c tid e) := by
        intro i hi
        rw [hcs] at hi
        obtain ⟨j, s, hj, hs, rfl⟩ := get?_of_mem_activeIdxs _ 0 _ hi
        simp only [Nat.zero_add]
        rw [htn]
        by_cases hj' : j < e.createdSources.length
        · rw [List.get?_append hj'] at hj
          have hjin : (0 + j) ∈ activeIdxs 0 e.createdSources :=
            activeIdxs_mem_of_get? e.createdSources 0 j s hj hs
          have := hinv _ hjin
          rw [Nat.zero_add] at this
          exact updateTrackNodes_refs_mono tid c.id _ e.trackNodes hcidfresh _ this
        · have hjlen : j = e.createdSources.length := by
            have hsome : ((e.createdSources ++ [src]).get? j).isSome := by
              rw [hj]; rfl
            have hlt : j < (e.createdSources ++ [src]).length := by
              by_contra hge
              rw [List.get?_eq_none.mpr (le_of_not_lt hge)] at hsome
              simp at hsome
            simp only [List.length_append, List.length_singleton] at hlt
            omega
          subst hjlen
          exact updateTrackNodes_refs_new tid c.id _ e.trackNodes hcidfresh htid
      have hdisj1 : ∀ x ∈ allNodeKeys (scheduleClipE now c tid e).trackNodes,
          x ∉ cs'.map (fun x => x.id) := by
        intro x hx
        rw [htn] at hx
        rcases updateTrackNodes_keys_sub tid c.id _ e.trackNodes x hx with hx' | rfl
        · exact fun hmem => hdisj x hx' (List.mem_cons_of_mem _ hmem)
        · exact hcnot
      obtain ⟨i1, ⟨S, hS, hSub⟩, i3, i4⟩ :=
        ih (scheduleClipE now c tid e) hctx1 htid1 hnd' hdisj1 hinv1
      refine ⟨i1, ⟨c.id :: S, ?_, List.Sublist.cons₂ _ hSub⟩, ?_, ?_⟩
      · rw [hS, hcs, activeIds_append]
        have hone : activeIds [src] = [c.id] := by
          simp [activeIds, hsrcact, hsrcid]
        rw [hone, List.append_assoc]
        rfl
      · intro x hx
        rcases i3 x hx with hx' | hx'
        · rw [htn] at hx'
          rcases updateTrackNodes_keys_sub tid c.id _ e.trackNodes x hx' with hx'' | rfl
          · exact Or.inl hx''
          · exact Or.inr (List.mem_cons_self _ _)
        · exact Or.inr (List.mem_cons_of_mem _ hx')
      · obtain ⟨t, ht⟩ := i4
        refine ⟨src :: t, ?_⟩
        rw [ht, hcs, List.append_assoc]
        rfl

theorem mapSet_mem {α : Type} (k : String) (v : α) :
    ∀ (m : List (String × α)) (p : String × α), p ∈ mapSet k v m → p ∈ m ∨ p = (k, v) := by
  intro m
  induction m with
  | nil =>
    intro p hp
    simp only [mapSet, List.mem_singleton] at hp
    exact Or.inr hp
  | cons kv rest ih =>
    obtain ⟨k', v'⟩ := kv
    intro p hp
    simp only [mapSet] at hp
    by_cases hk : k' = k
    · rw [if_pos hk] at hp
      rcases List.mem_cons.mp hp with rfl | hp'
      · exact Or.inr rfl
      · exact Or.inl (List.mem_cons_of_mem _ hp')
    · rw [if_neg hk] at hp
      rcases List.mem_cons.mp hp with rfl | hp'
      · exact Or.inl (List.mem_cons_self _ _)
      · rcases ih p hp' with h | h
        · exact Or.inl (List.mem_cons_of_mem _ h)
        · exact Or.inr h

theorem allNodeKeys_nil_of_empty :
    ∀ (tns : List (String × TrackNodeData)),
      (∀ kv ∈ tns, kv.2.clipNodes = []) → allNodeKeys tns = [] := by
  intro tns
  induction tns with
  | nil => intro _; rfl
  | cons kv rest ih =>
    intro h
    rw [allNodeKeys_cons, h kv (List.mem_cons_self _ _),
      ih (fun p hp => h p (List.mem_cons_of_mem _ hp))]
    rfl

theorem setupFold_clipNodes_nil :
    ∀ (ts : List AudioTrack) (m : List (String × TrackNodeData)),
      (∀ kv ∈ m, kv.2.clipNodes = ([] : List (String × ℕ))) →
      ∀ kv ∈ ts.foldl (fun m t =>
          mapSet t.id
            { gainValue := if t.muted then 0 else t.volume
              panValue := (createStereoPanner t.pan).panValue
              clipNodes := [] } m) m,
        kv.2.clipNodes = [] := by
  intro ts
  induction ts with
  | nil => intro m hm kv hkv; exact hm kv hkv
  | cons t ts' ih =>
    intro m hm kv hkv
    rw [List.foldl_cons] at hkv
    refine ih _ ?_ kv hkv
    intro p hp
    rcases mapSet_mem t.id _ m p hp with h | rfl
    · exact hm p h
    · rfl

theorem setup_spec (e : Engine) (hctx : e.ctx ≠ none) (hmg : e.mainGain ≠ none)
    (hinv : EngineInv e) :
    (setupAudioNodes e).createdSources
        = stopRefs (referencedIdxs e.trackNodes) 0 e.createdSources ∧
    (∀ s ∈ (setupAudioNodes e).createdSources, s.stopped = true) ∧
    allNodeKeys (setupAudioNodes e).trackNodes = [] := by
  have hcond : ¬(e.ctx = none ∨ e.mainGain = none) := by
    rintro (h | h)
    · exact hctx h
    · exact hmg h
  unfold setupAudioNodes
  rw [if_neg hcond]
  refine ⟨rfl, ?_, ?_⟩
  · intro s hs
    exact stopRefs_stopped _ e.createdSources 0 hinv s hs
  · exact allNodeKeys_nil_of_empty _
      (setupFold_clipNodes_nil e.project.tracks []
        (fun kv hkv => absurd hkv (List.not_mem_nil kv)))

theorem filterMap_find_ids_sublist (clips : List AudioClip) :
    ∀ (ids : List String),
      List.Sublist
        ((ids.filterMap (fun cid => clips.find? (fun c => c.id == cid))).map
          (fun x => x.id)) ids := by
  intro ids
  induction ids with
  | nil => simp
  | cons cid rest ih =>
    cases hf : clips.find? (fun c => c.id == cid) with
    | none =>
      simp only [List.filterMap_cons, hf]
      exact List.Sublist.cons _ ih
    | some c =>
      simp only [List.filterMap_cons, hf, List.map_cons]
      have h1 := List.find?_some hf
      rw [show c.id = cid from eq_of_beq h1]
      exact List.Sublist.cons₂ _ ih

theorem foldTracks_spec (now : ℚ) :
    ∀ (ts : List AudioTrack) (e : Engine),
      e.ctx ≠ none →
      (allClipIds ts).Nodup →
      (∀ x ∈ allNodeKeys e.trackNodes, x ∉ allClipIds ts) →
      EngineInv e →
      EngineInv (ts.foldl (stepTrack now) e) ∧
      (∃ S, activeIds (ts.foldl (stepTrack now) e).createdSources
          = activeIds e.createdSources ++ S ∧ List.Sublist S (allClipIds ts)) ∧
      (∀ x ∈ allNodeKeys (ts.foldl (stepTrack now) e).trackNodes,
          x ∈ allNodeKeys e.trackNodes ∨ x ∈ allClipIds ts) ∧
      (∃ t, (ts.foldl (stepTrack now) e).createdSources = e.createdSources ++ t) := by
  intro ts
  induction ts with
  | nil =>
    intro e hctx hnd hdisj hinv
    exact ⟨hinv, ⟨[], by simp, List.nil_sublist _⟩, fun x hx => Or.inl hx, ⟨[], by simp⟩⟩
  | cons t ts' ih =>
    intro e hctx hnd hdisj hinv
    have hfold : (t :: ts').foldl (stepTrack now) e
        = ts'.foldl (stepTrack now) (stepTrack now e t) := rfl
    rw [hfold]
    have hall : allClipIds (t :: ts') = t.clipIds ++ allClipIds ts' := rfl
    rw [hall] at hnd hdisj ⊢
    have hndr : (allClipIds ts').Nodup := List.Nodup.of_append_right hnd
    cases hfind : mapGet? t.id e.trackNodes with
    | none =>
      have hstep : stepTrack now e t = e := by simp [stepTrack, hfind]
      rw [hstep]
      have hdisj' : ∀ x ∈ allNodeKeys e.trackNodes, x ∉ allClipIds ts' :=
        fun x hx hmem => hdisj x hx (List.mem_append_right _ hmem)
      obtain ⟨i1, ⟨S, hS, hSub⟩, i3, i4⟩ := ih e hctx hndr hdisj' hinv
      exact ⟨i1, ⟨S, hS, hSub.trans (List.sublist_append_right _ _)⟩,
        fun x hx => (i3 x hx).imp id (List.mem_append_right _), i4⟩
    | some d =>
      have hstep : stepTrack now e t
          = scheduleTrackClips now t.id
              (t.clipIds.filterMap (fun cid => e.allClips.find? (fun c => c.id == cid))) e := by
        simp [stepTrack, hfind]
      rw [hstep]
      have htid : t.id ∈ e.trackNodes.map Prod.fst := mapGet?_some_mem t.id e.trackNodes d hfind
      have hsubids : List.Sublist
          ((t.clipIds.filterMap (fun cid => e.allClips.find? (fun c => c.id == cid))).map
            (fun x => x.id)) t.clipIds :=
        filterMap_find_ids_sublist e.allClips t.clipIds
      have hndl : t.clipIds.Nodup := List.Nodup.of_append_left hnd
      have hdisjlr := List.disjoint_of_nodup_append hnd
      have hndt : ((t.clipIds.filterMap
          (fun cid => e.allClips.find? (fun c => c.id == cid))).map (fun x => x.id)).Nodup :=
        List.Nodup.sublist hsubids hndl
      have hdisjt : ∀ x ∈ allNodeKeys e.trackNodes,
          x ∉ (t.clipIds.filterMap
            (fun cid => e.allClips.find? (fun c => c.id == cid))).map (fun x => x.id) :=
        fun x hx hmem => hdisj x hx (List.mem_append_left _ (hsubids.subset hmem))
      obtain ⟨j1, ⟨S1, hS1, hSub1⟩, j3, j4⟩ :=
        scheduleTrackClips_spec now t.id _ e hctx htid hndt hdisjt hinv
      obtain ⟨s1, s2, s3, s4, s5, s6, s7, s8, s9⟩ :=
        scheduleTrackClips_sameResidual now t.id
          (t.clipIds.filterMap (fun cid => e.allClips.find? (fun c => c.id == cid))) e
      have hctx2 : (scheduleTrackClips now t.id
          (t.clipIds.filterMap (fun cid => e.allClips.find? (fun c => c.id == cid))) e).ctx
            ≠ none := by
        rw [s1]; exact hctx
      have hdisj2 : ∀ x ∈ allNodeKeys (scheduleTrackClips now t.id
          (t.clipIds.filterMap (fun cid => e.allClips.find? (fun c => c.id == cid)))
            e).trackNodes,
          x ∉ allClipIds ts' := by
        intro x hx
        rcases j3 x hx with hx' | hx'
        · exact fun hmem => hdisj x hx' (List.mem_append_right _ hmem)
        · exact fun hmem => hdisjlr (hsubids.subset hx') hmem
      obtain ⟨i1, ⟨S2, hS2, hSub2⟩, i3, i4⟩ := ih _ hctx2 hndr hdisj2 j1
      refine ⟨i1, ⟨S1 ++ S2, ?_, ?_⟩, ?_, ?_⟩
      · rw [hS2, hS1, List.append_assoc]
      · exact List.Sublist.append (hSub1.trans hsubids) hSub2
      · intro x hx
        rcases i3 x hx with hx' | hx'
        · rcases j3 x hx' with hx'' | hx''
          · exact Or.inl hx''
          · exact Or.inr (List.mem_append_left _ (hsubids.subset hx''))
        · exact Or.inr (List.mem_append_right _ hx')
      · obtain ⟨t2, ht2⟩ := i4
        obtain ⟨t1, ht1⟩ := j4
        exact ⟨t1 ++ t2, by rw [ht2, ht1, List.append_assoc]⟩

theorem rebuild_spec (now : ℚ) (e : Engine)
    (hctx : e.ctx ≠ none) (hmg : e.mainGain ≠ none) (hinv : EngineInv e)
    (hwf : (allClipIds e.project.tracks).Nodup) :
    EngineInv (rebuildAndSchedule now e) ∧
    (activeClipIds (rebuildAndSchedule now e)).Nodup ∧
    (∀ i, i < e.createdSources.length →
      ∀ s, (rebuildAndSchedule now e).createdSources.get? i = some s →
        s.stopped = true) := by
  obtain ⟨hcs, hstopped, hkeys⟩ := setup_spec e hctx hmg hinv
  obtain ⟨r1, r2, r3, r4, r5, r6, r7, r8, r9⟩ := setupAudioNodes_sameResidual e
  have hctx1 : (setupAudioNodes e).ctx ≠ none := by rw [r1]; exact hctx
  have hinv1 : EngineInv (setupAudioNodes e) := by
    intro i hi
    rw [activeIdxs_nil_of_stopped (setupAudioNodes e).createdSources 0 hstopped] at hi
    cases hi
  have hwf1 : (allClipIds (setupAudioNodes e).project.tracks).Nodup := by
    rw [r4]; exact hwf
  have hdisj1 : ∀ x ∈ allNodeKeys (setupAudioNodes e).trackNodes,
      x ∉ allClipIds (setupAudioNodes e).project.tracks := by
    intro x hx
    rw [hkeys] at hx
    cases hx
  have hrb : rebuildAndSchedule now e
      = (setupAudioNodes e).project.tracks.foldl (stepTrack now) (setupAudioNodes e) := rfl
  obtain ⟨f1, ⟨S, hS, hSub⟩, f3, f4⟩ :=
    foldTracks_spec now (setupAudioNodes e).project.tracks (setupAudioNodes e)
      hctx1 hwf1 hdisj1 hinv1
  rw [hrb]
  refine ⟨f1, ?_, ?_⟩
  · show (activeIds ((setupAudioNodes e).project.tracks.foldl (stepTrack now)
      (setupAudioNodes e)).createdSources).Nodup
    rw [hS, activeIds_nil_of_stopped _ hstopped, List.nil_append]
    refine List.Nodup.sublist hSub ?_
    rw [r4]; exact hwf
  · intro i hi s hgs
    obtain ⟨t, ht⟩ := f4
    rw [ht] at hgs
    have hlen : i < (setupAudioNodes e).createdSources.length := by
      rw [hcs, stopRefs_length]; exact hi
    rw [List.get?_append hlen] at hgs
    exact hstopped s (List.get?_mem hgs)

theorem rebuild_iterate_residual (now : ℚ) (e : Engine)
    (hctx : e.ctx ≠ none) (hmg : e.mainGain ≠ none) (hinv : EngineInv e)
    (hwf : (allClipIds e.project.tracks).Nodup) :
    ∀ N, ((rebuildAndSchedule now)^[N] e).ctx = e.ctx ∧
      ((rebuildAndSchedule now)^[N] e).mainGain = e.mainGain ∧
      ((rebuildAndSchedule now)^[N] e).project = e.project ∧
      EngineInv ((rebuildAndSchedule now)^[N] e) := by
  intro N
  induction N with
  | zero => exact ⟨rfl, rfl, rfl, hinv⟩
  | succ m ihm =>
    obtain ⟨p1, p2, p3, p4⟩ := ihm
    have hctx' : ((rebuildAndSchedule now)^[m] e).ctx ≠ none := by rw [p1]; exact hctx
    have hmg' : ((rebuildAndSchedule now)^[m] e).mainGain ≠ none := by rw [p2]; exact hmg
    have hwf' : (allClipIds ((rebuildAndSchedule now)^[m] e).project.tracks).Nodup := by
      rw [p3]; exact hwf
    obtain ⟨q1, q2, q3, q4, q5, q6, q7, q8, q9⟩ :=
      rebuildAndSchedule_sameResidual now ((rebuildAndSchedule now)^[m] e)
    obtain ⟨g1, g2, g3⟩ := rebuild_spec now _ hctx' hmg' p4 hwf'
    rw [Function.iterate_succ_apply']
    exact ⟨by rw [q1, p1], by rw [q2, p2], by rw [q4, p3], g1⟩

/-- C3: for an engine with a live context and main gain whose bookkeeping
invariant holds (every active source is reachable through a clipNodes
map) and whose project assigns each clip id to at most one place, a
rebuild-and-schedule pass first stops every previously created source:
each source at an index below the old createdSources length is stopped
in the result, before any new source is appended.  Consequently, after
any number N ≥ 1 of consecutive rebuild-and-schedule calls with no
intervening stop, the active (created, unstopped) sources have pairwise
distinct clip ids: at most one active source per clip. -/
theorem rebuild_single_voice (now : ℚ) (e : Engine) (N : ℕ)
    (hctx : e.ctx ≠ none) (hmg : e.mainGain ≠ none) (hinv : EngineInv e)
    (hwf : (allClipIds e.project.tracks).Nodup) (hN : 1 ≤ N) :
    (∀ i, i < e.createdSources.length →
      ∀ s, (rebuildAndSchedule now e).createdSources.get? i = some s →
        s.stopped = true) ∧
    (activeClipIds ((rebuildAndSchedule now)^[N] e)).Nodup := by
  refine ⟨(rebuild_spec now e hctx hmg hinv hwf).2.2, ?_⟩
  obtain ⟨m, rfl⟩ : ∃ m, N = m + 1 := ⟨N - 1, by omega⟩
  obtain ⟨p1, p2, p3, p4⟩ := rebuild_iterate_residual now e hctx hmg hinv hwf m
  have hctx' : ((rebuildAndSchedule now)^[m] e).ctx ≠ none := by rw [p1]; exact hctx
  have hmg' : ((rebuildAndSchedule now)^[m] e).mainGain ≠ none := by rw [p2]; exact hmg
  have hwf' : (allClipIds ((rebuildAndSchedule now)^[m] e).project.tracks).Nodup := by
    rw [p3]; exact hwf
  rw [Function.iterate_succ_apply']
  exact (rebuild_spec now _ hctx' hmg' p4 hwf').2.1

/-- Witness for C3 at a concrete engine: a running context with one
track owning one decoded clip, two consecutive rebuild-and-schedule
passes. -/
theorem rebuild_single_voice_witness :
    (∀ i, i < engC3.createdSources.length →
      ∀ s, (rebuildAndSchedule 100 engC3).createdSources.get? i = some s →
        s.stopped = true) ∧
    (activeClipIds ((rebuildAndSchedule 100)^[2] engC3)).Nodup :=
  rebuild_single_voice 100 engC3 2 (by decide) (by decide)
    (by unfold EngineInv; decide) (by decide) (by decide)

end AudioStreams
